import Mathlib

/-!
Verification of the goal-tracker program `src/goals.py`.

The Python source is shallowly embedded below.  Dictionaries become
association lists (`List (key × value)` with first-occurrence lookup,
matching Python's unique-key dicts), calendar dates become their proleptic
Gregorian day ordinals (`Int`; `datetime.date` plus `timedelta(days := n)`
is isomorphic to integer day arithmetic, and `dateOrdinal` computes the
ordinal of a year/month/day triple), and the float quotient used for
heat-map bucketing becomes the exact rational quotient (the thresholds
0.25, 0.5, 0.75 and all realistic counts are exactly representable, where
the two agree).  Console output is ignored; every state change of the
loaded document is modelled.
-/

/-! ## Heatmap color bucketing (goals.py, get_color, lines 71-82) -/

/-- Intensity buckets of the heatmap legend: `Colors.EMPTY` and the four
green levels `L1`-`L4` of `goals.py`. -/
inductive Bucket
  | empty
  | L1
  | L2
  | L3
  | L4
deriving DecidableEq

/-- Position of a bucket in the legend order empty < L1 < L2 < L3 < L4. -/
def Bucket.val : Bucket → Nat
  | .empty => 0
  | .L1 => 1
  | .L2 => 2
  | .L3 => 3
  | .L4 => 4

/-- Embedding of `get_color(count, max_count)` (lines 71-82).  The Python
float division `count / max_count` is modelled by exact rational division;
the `percentage` local is inlined at each comparison (it is pure). -/
def get_color (count max_count : Int) : Bucket :=
  if count = 0 then Bucket.empty
  else if ((count : ℚ) / ((if max_count = 0 then 1 else max_count : Int) : ℚ)) < 1/4 then Bucket.L1
  else if ((count : ℚ) / ((if max_count = 0 then 1 else max_count : Int) : ℚ)) < 1/2 then Bucket.L2
  else if ((count : ℚ) / ((if max_count = 0 then 1 else max_count : Int) : ℚ)) < 3/4 then Bucket.L3
  else Bucket.L4

/-- Embedding of the scaling maximum computed in `print_heatmap`
(lines 304-307): `max_val = 0; for count in history.values(): if count >
max_val: max_val = count`. -/
def max_val (history : List (Int × Int)) : Int :=
  history.foldl (fun m p => if m < p.2 then p.2 else m) 0

/-! ## Calendar dates -/

/-- Day ordinal of a Gregorian calendar date (days since 1970-01-01),
computed by the standard civil-calendar formula.  `datetime.date` values
of the program are modelled by these ordinals: date order is ordinal
order and `timedelta(days := 1)` is `+ 1`. -/
def dateOrdinal (y m d : Nat) : Int :=
  let y2 := if m ≤ 2 then y - 1 else y
  let era := y2 / 400
  let yoe := y2 - era * 400
  let doy := (153 * (if 2 < m then m - 3 else m + 9) + 2) / 5 + d - 1
  let doe := yoe * 365 + yoe / 4 - yoe / 100 + doy
  Int.ofNat (era * 146097 + doe) - 719468

/-! ## Statistics engine (goals.py, calculate_stats, lines 95-157) -/

/-- Embedding of the current-streak loop (lines 118-125): starting from a
day already known to be in `dates`, count how many immediately preceding
consecutive days are also members.  The Python loop is unbounded
(`while True`); here it carries fuel, and the callers pass
`dates.length`, which can never be exhausted when the start day is a
member of `dates` (each successful step names a fresh member, see
`consecBefore_lt_length`), so the two agree on every reachable input. -/
def consecBefore (dates : List Int) : Int → Nat → Nat
  | _, 0 => 0
  | c, fuel + 1 => if (c - 1) ∈ dates then consecBefore dates (c - 1) fuel + 1 else 0

/-- Embedding of the longest-streak scan (lines 133-138): `prev` is
`dates[i-1]`, `temp` the current run length, `best` the maximum so far. -/
def longestLoop : Int → Nat → Nat → List Int → Nat
  | _, _, best, [] => best
  | prev, temp, best, d :: rest =>
    let t := if d = prev + 1 then temp + 1 else 1
    longestLoop d t (max best t) rest

/-- Longest streak of a sorted positive-date list (lines 127-138):
`0` for an empty list, otherwise the scan starts with `temp = longest = 1`. -/
def longest_streak : List Int → Nat
  | [] => 0
  | d :: rest => longestLoop d 1 1 rest

/-- Embedding of `calculate_stats(history)` (lines 95-157), restricted to
the three components the claims use: current streak, longest streak and
lifetime total.  (The daily average and best-day-of-week outputs are pure
display values not referenced by any claim.)  The implicit global
`datetime.date.today()` is the explicit `today` parameter. -/
def calculate_stats (history : List (Int × Int)) (today : Int) : Nat × Nat × Int :=
  if history.isEmpty then (0, 0, 0)
  else
    let dates := List.insertionSort (· ≤ ·) ((history.filter (fun p => decide (0 < p.2))).map Prod.fst)
    let total := (history.map Prod.snd).sum
    if dates.isEmpty then (0, 0, total)
    else
      let yesterday := today - 1
      let cur : Nat :=
        if today ∈ dates then 1 + consecBefore dates today dates.length
        else if yesterday ∈ dates then 1 + consecBefore dates yesterday dates.length
        else 0
      (cur, longest_streak dates, total)

/-! ## Data model (goals.py, load_data default user, lines 44-65; records
created by cmd_add, lines 354-360) -/

/-- The five RPG stat codes of `VALID_STATS` (line 12). -/
inductive StatName
  | STR
  | AGI
  | INT
  | VIT
  | PER
deriving DecidableEq

/-- The `_user["stats"]` mapping with its five fixed keys. -/
structure Stats where
  STR : Int
  AGI : Int
  INT : Int
  VIT : Int
  PER : Int
deriving DecidableEq

/-- Embedding of `data["_user"]["stats"][stat_name] += 1` (line 428). -/
def incStat (s : Stats) : StatName → Stats
  | .STR => { s with STR := s.STR + 1 }
  | .AGI => { s with AGI := s.AGI + 1 }
  | .INT => { s with INT := s.INT + 1 }
  | .VIT => { s with VIT := s.VIT + 1 }
  | .PER => { s with PER := s.PER + 1 }

/-- A goal record as created by `cmd_add` (lines 354-360).  The `stat`
field is `VALID_STATS`-validated on creation (lines 339-341), so it is an
`Option StatName`. -/
structure Goal where
  created : Int
  history : List (Int × Int)
  archived : Bool
  unit : String
  stat : Option StatName
deriving DecidableEq

/-- The `_user` profile record (lines 45-50).  The `daily_quests` dict is
created lazily in Python (line 255); modelling it as an always-present
list with empty default is observationally identical. -/
structure UserProfile where
  xp : Nat
  level : Nat
  badges : List String
  stats : Stats
  daily_quests : List (Int × Bool)
deriving DecidableEq

/-- The persisted document: in Python a single dict holding the goal
records plus the profile under the reserved key `"_user"`.  The profile
is split out here; goal keys never start with an underscore (guarded at
creation, line 332), and the underscore guards of the source are kept in
the embedding. -/
structure Document where
  user : UserProfile
  goals : List (String × Goal)
deriving DecidableEq

/-- Dictionary lookup on an association list (first matching key). -/
def getEntry {α β : Type} [DecidableEq α] : List (α × β) → α → Option β
  | [], _ => none
  | p :: rest, k => if p.1 = k then some p.2 else getEntry rest k

/-- Dictionary assignment `d[k] = v` on an association list: replaces the
first matching key, appends if absent (Python dicts keep insertion
order and overwrite in place). -/
def setEntry {α β : Type} [DecidableEq α] : List (α × β) → α → β → List (α × β)
  | [], k, v => [(k, v)]
  | p :: rest, k, v => if p.1 = k then (k, v) :: rest else p :: setEntry rest k v

/-- Lookup of a goal record by name, `data[name]`. -/
def lookupGoal (d : Document) (name : String) : Option Goal :=
  getEntry d.goals name

/-- The reserved-prefix string of the profile key. -/
def uscore : String := "_"

/-- Embedding of Python's `s.startswith(pre)`: a prefix test on the
character sequences.  (It is stated on `String.data` rather than via the
byte-level `String.startsWith` primitive so that it evaluates inside the
kernel; the two agree on every string.) -/
def strStartsWith (s pre : String) : Bool := pre.data.isPrefixOf s.data

/-! ## Gamification engine (goals.py, lines 182-267) -/

/-- Embedding of the level-up loop of `add_xp` (lines 192-197) on the
profile's `(xp, level)`; the `Bool` is the `leveled_up` flag.  The extra
`0 < level` conjunct in the guard discharges termination; it never alters
behaviour on a reachable profile, since `level` is initialised to `1`
(line 47) and only ever incremented, and for `level ≥ 1` the guard is
exactly Python's `user["xp"] >= xp_needed`. -/
def add_xp_loop (xp level : Nat) : Nat × Nat × Bool :=
  if h : level * 100 ≤ xp ∧ 0 < level then
    let r := add_xp_loop (xp - level * 100) (level + 1)
    (r.1, r.2.1, true)
  else (xp, level, false)
termination_by xp
decreasing_by
  obtain ⟨h1, h2⟩ := h
  omega

/-- Embedding of `add_xp(data, amount)` (lines 182-199): add the award to
`xp`, then consume `level * 100` thresholds while possible. -/
def add_xp (u : UserProfile) (amount : Nat) : UserProfile × Bool :=
  let r := add_xp_loop (u.xp + amount) u.level
  ({ u with xp := r.1, level := r.2.1 }, r.2.2)

/-- Badge identifier strings of `check_achievements` (lines 212-235). -/
def badge_player : String := "The Player (Awakened)"

/-- Badge for `total >= 100`. -/
def badge_igris : String := "Igris (100 Total)"

/-- Badge for `total >= 500`. -/
def badge_tank : String := "Tank (500 Total)"

/-- Badge for `total >= 1000`. -/
def badge_beru : String := "Beru (1K Total)"

/-- Badge for `total >= 5000`. -/
def badge_bellion : String := "Bellion (5K Total)"

/-- Badge for a 3-day current streak. -/
def badge_heating : String := "Heating Up (3 Day Streak)"

/-- Badge for a 7-day current streak. -/
def badge_false_ranker : String := "False Ranker (7 Day Streak)"

/-- Badge for a 30-day current streak. -/
def badge_monarch : String := "Monarch (30 Day Streak)"

/-- Badge for 3 or more active goals. -/
def badge_necromancer : String := "Necromancer (3 Active Goals)"

/-- Embedding of `unlock_badge(data, badge_name)` (lines 201-210): append
the badge if absent and report `True`, otherwise leave the profile
unchanged and report `False`. -/
def unlock_badge (d : Document) (b : String) : Document × Bool :=
  if b ∉ d.user.badges then
    ({ d with user := { d.user with badges := d.user.badges ++ [b] } }, true)
  else (d, false)

/-- One guarded unlock, `if cond: unlock_badge(data, badge)`; the returned
`True`/`False` of `unlock_badge` is discarded as in the source. -/
def condUnlock (c : Prop) [Decidable c] (d : Document) (b : String) : Document :=
  if c then (unlock_badge d b).1 else d

/-- Embedding of `check_achievements(data, goal_name)` (lines 212-235):
re-evaluate every milestone predicate over the goal's recomputed stats
and the document, unlocking each badge whose predicate holds.  The
`data[goal_name]` access presumes the goal exists (it always does at the
call site, line 441); the `[]` default covers the unreachable miss. -/
def check_achievements (d : Document) (goal_name : String) (today : Int) : Document :=
  let history := match lookupGoal d goal_name with
    | some g => g.history
    | none => []
  let s := calculate_stats history today
  let cur := s.1
  let total := s.2.2
  let d1 := condUnlock (0 < total) d badge_player
  let d2 := condUnlock (100 ≤ total) d1 badge_igris
  let d3 := condUnlock (500 ≤ total) d2 badge_tank
  let d4 := condUnlock (1000 ≤ total) d3 badge_beru
  let d5 := condUnlock (5000 ≤ total) d4 badge_bellion
  let d6 := condUnlock (3 ≤ cur) d5 badge_heating
  let d7 := condUnlock (7 ≤ cur) d6 badge_false_ranker
  let d8 := condUnlock (30 ≤ cur) d7 badge_monarch
  let active := (d8.goals.filter (fun p => !(strStartsWith p.1 uscore) && !p.2.archived)).length
  condUnlock (3 ≤ active) d8 badge_necromancer

/-- Number of distinct non-archived goals with a positive entry for
`today` (lines 240-248). -/
def goals_logged_today (d : Document) (today : Int) : Nat :=
  (d.goals.filter (fun p =>
    !(strStartsWith p.1 uscore) && !p.2.archived &&
      decide (0 < (getEntry p.2.history today).getD 0))).length

/-- Embedding of `check_daily_quest(data)` (lines 237-267): if exactly 4
active goals were logged positively today and the bonus was not already
granted today, record the grant and return the 50 bonus XP, else return
0 with the document unchanged. -/
def check_daily_quest (d : Document) (today : Int) : Document × Nat :=
  if goals_logged_today d today = 4 then
    if getEntry d.user.daily_quests today ≠ some true then
      ({ d with user := { d.user with daily_quests := setEntry d.user.daily_quests today true } }, 50)
    else (d, 0)
  else (d, 0)

/-! ## Log command (goals.py, cmd_log, lines 366-448) -/

/-- Outcome of the string tests on the amount argument (lines 394-404):
`signed` for a `+`/`-`-prefixed integer (a delta), `absolute` for a bare
integer (an absolute set), `notInt` for a string `int()` rejects
(the `ValueError` branch). -/
inductive AmountArg
  | signed (delta : Int)
  | absolute (value : Int)
  | notInt
deriving DecidableEq

/-- Outcome of the date argument handling (lines 377-386): absent
(defaults to today), a well-formed `YYYY-MM-DD` date (its ordinal), or a
string `strptime` rejects. -/
inductive DateArg
  | noneGiven
  | valid (d : Int)
  | malformed
deriving DecidableEq

/-- The `(new_amount, amount_delta)` computation of lines 394-404, given
the current stored value for the log date. -/
def parse_amount (amount : AmountArg) (current : Int) : Option (Int × Int) :=
  match amount with
  | .signed delta => some (current + delta, delta)
  | .absolute v => some (v, v - current)
  | .notInt => none

/-- Resolution of the log date (lines 377-386): `none` means the
operation is rejected. -/
def resolve_date (date : DateArg) (today : Int) : Option Int :=
  match date with
  | .noneGiven => some today
  | .valid d => some d
  | .malformed => none

/-- Embedding of `cmd_log(args, data)` (lines 366-448): reject unknown or
reserved names, malformed dates and non-integer amounts without touching
the document; otherwise write the new amount into the goal's history and,
when the net delta is positive, run the gamification chain in source
order: streak bonus (on the updated history), daily-quest bonus (only
when logging for today), stat increment, `add_xp`, `check_achievements`.
Console output and the final `save_data` are outside the document
transition and are dropped. -/
def cmd_log (data : Document) (name : String) (amount : AmountArg) (date : DateArg) (today : Int) : Document :=
  if strStartsWith name uscore then data
  else
    match lookupGoal data name with
    | none => data
    | some g =>
      match resolve_date date today with
      | none => data
      | some log_date =>
        let current : Int := (getEntry g.history log_date).getD 0
        match parse_amount amount current with
        | none => data
        | some na =>
          let hist1 := setEntry g.history log_date na.1
          let data1 : Document := { data with goals := setEntry data.goals name { g with history := hist1 } }
          if 0 < na.2 then
            let cur_streak := (calculate_stats hist1 today).1
            let base_gain : Nat := if 1 < cur_streak then 10 + min (cur_streak * 2) 20 else 10
            let q := if log_date = today then check_daily_quest data1 today else (data1, 0)
            let data3 : Document := match g.stat with
              | some s => { q.1 with user := { q.1.user with stats := incStat q.1.user.stats s } }
              | none => q.1
            let data4 : Document := { data3 with user := (add_xp data3.user (base_gain + q.2)).1 }
            check_achievements data4 name today
          else data1

/-! ## Concrete fixtures used by witnesses and counterexamples -/

/-- The default stats block (line 49). -/
def stats0 : Stats := ⟨10, 10, 10, 10, 10⟩

/-- The default fresh profile (lines 45-50). -/
def profile0 : UserProfile := ⟨0, 1, [], stats0, []⟩

/-- The empty unit label. -/
def emptyStr : String := ""

/-- A goal name fixture. -/
def gname1 : String := "pushup"

/-- A goal name fixture. -/
def gname2 : String := "situp"

/-- A goal name fixture. -/
def gname3 : String := "squat"

/-- A goal name fixture. -/
def gname4 : String := "run"

/-- A goal with one positive entry on day 0. -/
def goalPos : Goal := { created := 0, history := [(0, 1)], archived := false, unit := emptyStr, stat := none }

/-- A document with exactly four active goals, all logged positively on
day 0, and the daily bonus not yet granted. -/
def doc4 : Document := ⟨profile0, [(gname1, goalPos), (gname2, goalPos), (gname3, goalPos), (gname4, goalPos)]⟩

/-- A document whose profile already holds one badge. -/
def doc7 : Document := ⟨⟨0, 1, [badge_player], stats0, []⟩, [(gname1, goalPos)]⟩

/-- A one-goal document for the frame-condition witness. -/
def doc8 : Document := ⟨profile0, [(gname1, goalPos)]⟩

/-- A goal with no history yet. -/
def goalEmpty : Goal := { created := 0, history := [], archived := false, unit := emptyStr, stat := none }

/-- A document with three goals logged positively on day 0 and a fourth
goal not yet logged. -/
def doc4b : Document :=
  ⟨profile0, [(gname1, goalPos), (gname2, goalPos), (gname3, goalPos), (gname4, goalEmpty)]⟩

/-- The history of the streak scenario of the specification:
`2024-01-01 ↦ 1, 2024-01-02 ↦ 1, 2024-01-04 ↦ 1`. -/
def hist6 : List (Int × Int) :=
  [(dateOrdinal 2024 1 1, 1), (dateOrdinal 2024 1 2, 1), (dateOrdinal 2024 1 4, 1)]

/-- Ascending run of consecutive integers: `chainList a k = [a, a+1, ..., a+k-1]`. -/
def chainList (a : Int) : Nat → List Int
  | 0 => []
  | k + 1 => a :: chainList (a + 1) k

/-! ## Helper lemmas -/

/-- Looking up the key just written returns the written value. -/
lemma getEntry_setEntry_self {α β : Type} [DecidableEq α] (l : List (α × β)) (k : α) (v : β) :
    getEntry (setEntry l k v) k = some v := by
  induction l with
  | nil => simp [setEntry, getEntry]
  | cons p rest ih =>
    by_cases h : p.1 = k
    · simp [setEntry, getEntry, h]
    · simp [setEntry, getEntry, h, ih]

/-- The scaling maximum of a heatmap is never negative. -/
lemma max_val_nonneg (history : List (Int × Int)) : 0 ≤ max_val history := by
  suffices h : ∀ (l : List (Int × Int)) (a : Int), 0 ≤ a →
      0 ≤ l.foldl (fun m p => if m < p.2 then p.2 else m) a by
    exact h history 0 le_rfl
  intro l
  induction l with
  | nil => intro a ha; simpa using ha
  | cons p rest ih =>
    intro a ha
    simp only [List.foldl_cons]
    apply ih
    split <;> omega

/-- Unfolding equation for `add_xp_loop` at an exhausted guard. -/
lemma add_xp_loop_stop (xp level : Nat) (h : ¬ (level * 100 ≤ xp ∧ 0 < level)) :
    add_xp_loop xp level = (xp, level, false) := by
  rw [add_xp_loop]
  simp [h]

/-- Unfolding equation for `add_xp_loop` at a satisfied guard. -/
lemma add_xp_loop_step (xp level : Nat) (h : level * 100 ≤ xp ∧ 0 < level) :
    add_xp_loop xp level =
      ((add_xp_loop (xp - level * 100) (level + 1)).1,
       (add_xp_loop (xp - level * 100) (level + 1)).2.1, true) := by
  rw [add_xp_loop]
  simp [h]

/-- Concrete run: 250 XP from a fresh profile consumes only the level-1
threshold of 100, leaving 150 XP at level 2 (the level-2 threshold is
200 > 150). -/
lemma add_xp_loop_250 : add_xp_loop 250 1 = (150, 2, true) := by
  rw [add_xp_loop_step 250 1 (by norm_num), add_xp_loop_stop 150 2 (by norm_num)]

/-- Concrete run: 350 XP from a fresh profile consumes the level-1
threshold 100 and the level-2 threshold 200, reaching level 3 with 50 XP. -/
lemma add_xp_loop_350 : add_xp_loop 350 1 = (50, 3, true) := by
  rw [add_xp_loop_step 350 1 (by norm_num), add_xp_loop_step 250 2 (by norm_num),
    add_xp_loop_stop 50 3 (by norm_num)]

/-! ## C1: multi-level jump example -/

/-- C1 counterexample: `addXp` on a fresh profile (level 1, xp 0) with
amount 250 yields level 2 with 150 XP, not the claimed level 3 with
50 XP — the code's threshold is `level * 100`, so the second threshold
is 200, which the remaining 150 XP does not reach. -/
theorem add_xp_250_counterexample :
    (add_xp profile0 250).1.level = 2 ∧ (add_xp profile0 250).1.xp = 150 ∧
      ¬ ((add_xp profile0 250).1.level = 3 ∧ (add_xp profile0 250).1.xp = 50) := by
  have h : add_xp profile0 250 = ({ profile0 with xp := 150, level := 2 }, true) := by
    simp [add_xp, profile0, add_xp_loop_250]
  rw [h]
  simp

/-- C1 (amended): applying `addXp` to a profile with level 1 and xp 0
with amount 250 yields level 2 and xp 150 (one 100-XP threshold consumed,
the remaining 150 below the level-2 threshold of 200); a multi-level jump
in one call does occur for amount 350, which yields level 3 and xp 50
(100 then 200 consumed). -/
theorem add_xp_level_formula :
    (add_xp profile0 250).1.level = 2 ∧ (add_xp profile0 250).1.xp = 150 ∧
      (add_xp profile0 350).1.level = 3 ∧ (add_xp profile0 350).1.xp = 50 := by
  have h : add_xp profile0 250 = ({ profile0 with xp := 150, level := 2 }, true) := by
    simp [add_xp, profile0, add_xp_loop_250]
  have h' : add_xp profile0 350 = ({ profile0 with xp := 50, level := 3 }, true) := by
    simp [add_xp, profile0, add_xp_loop_350]
  rw [h, h']
  simp

/-! ## C6: streak scenario -/

/-- C6: for the history mapping 2024-01-01 and 2024-01-02 and 2024-01-04
each to 1, with today = 2024-01-04, the statistics engine computes
current streak 1 (the gap on 2024-01-03 breaks the run) and longest
streak 2. -/
theorem streak_scenario_2024 :
    (calculate_stats hist6 (dateOrdinal 2024 1 4)).1 = 1 ∧
      (calculate_stats hist6 (dateOrdinal 2024 1 4)).2.1 = 2 := by
  constructor <;> rfl

/-! ## C9: atomicity on invalid input -/

/-- C9: a log operation with a non-integer amount string or a malformed
date string is rejected with the document left entirely untouched: no
history entry is written and no XP, stat, badge or daily-quest change
occurs. -/
theorem log_invalid_input_untouched :
    (∀ (data : Document) (name : String) (date : DateArg) (today : Int),
        cmd_log data name AmountArg.notInt date today = data) ∧
    (∀ (data : Document) (name : String) (amount : AmountArg) (today : Int),
        cmd_log data name amount DateArg.malformed today = data) := by
  constructor
  · intro data name date today
    unfold cmd_log
    split
    · rfl
    · split
      · rfl
      · split
        · rfl
        · rfl
  · intro data name amount today
    unfold cmd_log
    split
    · rfl
    · split
      · rfl
      · rfl

/-! ## C10: empty bucket exactly at zero; negative counts get L1 -/

/-- C10: against the scaling maximum computed by the heatmap renderer
(which is never negative), the bucketing function returns the empty
bucket exactly when the count is 0, and a negative stored count (possible
via decrement logging) gets the lowest non-empty bucket L1, because its
ratio to the positive divisor is below the 25% threshold. -/
theorem get_color_empty_iff_zero (history : List (Int × Int)) (count : Int) :
    (get_color count (max_val history) = Bucket.empty ↔ count = 0) ∧
      (count < 0 → get_color count (max_val history) = Bucket.L1) := by
  have hm : (0 : Int) < (if max_val history = 0 then 1 else max_val history) := by
    have := max_val_nonneg history
    split <;> omega
  constructor
  · constructor
    · intro h
      by_contra hc
      unfold get_color at h
      rw [if_neg hc] at h
      split_ifs at h
    · intro h
      subst h
      simp [get_color]
  · intro hneg
    have h0 : count ≠ 0 := by omega
    have hq : ((count : ℚ) / ((if max_val history = 0 then 1 else max_val history : Int) : ℚ)) < 1/4 := by
      have h1 : ((count : ℚ)) < 0 := by exact_mod_cast hneg
      have h2 : (0 : ℚ) < ((if max_val history = 0 then 1 else max_val history : Int) : ℚ) := by
        exact_mod_cast hm
      have := div_neg_of_neg_of_pos h1 h2
      linarith
    unfold get_color
    rw [if_neg h0, if_pos hq]

/-- C10 witness: at the empty history the scaling maximum is 0 and a
stored count of -1 is bucketed as L1. -/
theorem get_color_empty_iff_zero_witness :
    ((-1 : Int) < 0) ∧ get_color (-1) (max_val []) = Bucket.L1 :=
  ⟨by decide, (get_color_empty_iff_zero [] (-1)).2 (by decide)⟩

/-! ## C2: monotonicity of the bucketing -/

/-- C2 counterexample: bucketing is not monotonic over all integer
counts: with maximum 4, the count -1 (reachable by decrement logging) is
bucketed L1 while the larger count 0 is bucketed empty, and empty is
below L1 in the bucket order. -/
theorem get_color_monotone_counterexample :
    ((-1 : Int) < 0) ∧ get_color (-1) 4 = Bucket.L1 ∧ get_color 0 4 = Bucket.empty ∧
      ¬ (Bucket.val (get_color (-1) 4) ≤ Bucket.val (get_color 0 4)) := by
  have h1 : get_color (-1) 4 = Bucket.L1 := by unfold get_color; norm_num
  have h0 : get_color 0 4 = Bucket.empty := by unfold get_color; norm_num
  refine ⟨by decide, h1, h0, ?_⟩
  rw [h1, h0]
  decide

/-- C2 (amended): for a fixed maximum and non-negative counts, bucketing
is monotonic: count1 < count2 implies the bucket of count1 is at or below
the bucket of count2 in the order empty < L1 < L2 < L3 < L4.  (The
restriction to non-negative counts is forced: a negative count is
bucketed L1 while 0 is bucketed empty.) -/
theorem get_color_monotone_nonneg (mx c1 c2 : Int) (h0 : 0 ≤ c1) (h12 : c1 < c2) :
    Bucket.val (get_color c1 mx) ≤ Bucket.val (get_color c2 mx) := by
  rcases eq_or_lt_of_le h0 with h | h
  · have he : get_color c1 mx = Bucket.empty := by rw [← h]; unfold get_color; simp
    rw [he]
    exact Nat.zero_le _
  · have h1 : c1 ≠ 0 := by omega
    have h2 : c2 ≠ 0 := by omega
    unfold get_color
    rw [if_neg h1, if_neg h2]
    set m : Int := (if mx = 0 then 1 else mx) with hmdef
    rcases lt_trichotomy m 0 with hm | hm | hm
    · have ha1 : (0:ℚ) < (c1:ℚ) := by exact_mod_cast h
      have ha2 : (0:ℚ) < (c2:ℚ) := by
        have h' : (0:Int) < c2 := by omega
        exact_mod_cast h'
      have hb : ((m:Int):ℚ) < 0 := by exact_mod_cast hm
      have hq1 : ((c1:ℚ) / (m:ℚ)) < 1/4 := by
        have := div_neg_of_pos_of_neg ha1 hb
        linarith
      have hq2 : ((c2:ℚ) / (m:ℚ)) < 1/4 := by
        have := div_neg_of_pos_of_neg ha2 hb
        linarith
      rw [if_pos hq1, if_pos hq2]
    · exfalso
      rw [hmdef] at hm
      split_ifs at hm <;> omega
    · have hc : (c1:ℚ) < (c2:ℚ) := by exact_mod_cast h12
      have hmq : (0:ℚ) < (m:ℚ) := by exact_mod_cast hm
      have hq : ((c1:ℚ) / (m:ℚ)) < ((c2:ℚ) / (m:ℚ)) := by
        rw [div_lt_div_iff₀ hmq hmq]
        exact mul_lt_mul_of_pos_right hc hmq
      split_ifs <;> simp [Bucket.val] <;> linarith

/-- C2 witness: monotonicity instantiated at maximum 4 and counts 0 < 3. -/
theorem get_color_monotone_nonneg_witness :
    ((0:Int) ≤ 0 ∧ (0:Int) < 3) ∧ Bucket.val (get_color 0 4) ≤ Bucket.val (get_color 3 4) :=
  ⟨⟨le_refl 0, by decide⟩, get_color_monotone_nonneg 4 0 3 (by decide) (by decide)⟩

/-! ## C3: behaviour at the exact 25/50/75% thresholds -/

/-- C3 counterexample: at an exactly-25% ratio (count 1 of maximum 4) the
code assigns L2, the higher of the two adjacent buckets, not the claimed
lower bucket L1: the strictly-less-than comparison excludes the boundary
from the lower bucket. -/
theorem get_color_quarter_counterexample :
    ((1:ℚ) / ((if (4:Int) = 0 then 1 else 4 : Int) : ℚ) = 1/4) ∧
      get_color 1 4 = Bucket.L2 ∧ get_color 1 4 ≠ Bucket.L1 := by
  have h : get_color 1 4 = Bucket.L2 := by unfold get_color; norm_num
  exact ⟨by norm_num, h, by rw [h]; decide⟩

/-- C3 (amended): when the ratio of count to the divisor (the maximum,
or 1 when the maximum is 0) is exactly 25%, 50% or 75%, the bucketing
function assigns the higher of the two adjacent buckets — L2, L3 and L4
respectively — because the threshold comparisons are strictly-less-than
and the boundary value fails the lower bucket's test. -/
theorem get_color_exact_thresholds (count max_count : Int) :
    (((count : ℚ) / ((if max_count = 0 then 1 else max_count : Int) : ℚ)) = 1/4 →
        get_color count max_count = Bucket.L2) ∧
    (((count : ℚ) / ((if max_count = 0 then 1 else max_count : Int) : ℚ)) = 1/2 →
        get_color count max_count = Bucket.L3) ∧
    (((count : ℚ) / ((if max_count = 0 then 1 else max_count : Int) : ℚ)) = 3/4 →
        get_color count max_count = Bucket.L4) := by
  refine ⟨?_, ?_, ?_⟩ <;> intro h
  all_goals
    have hc : count ≠ 0 := by
      intro h0
      rw [h0] at h
      norm_num at h
  all_goals
    unfold get_color
    rw [if_neg hc, h]
  all_goals norm_num

/-- C3 witness: the exact-threshold behaviour instantiated at count 1,
maximum 4 (ratio exactly 25%, bucket L2). -/
theorem get_color_exact_thresholds_witness :
    ((1:ℚ) / ((if (4:Int) = 0 then 1 else 4 : Int) : ℚ) = 1/4) ∧ get_color 1 4 = Bucket.L2 :=
  ⟨by norm_num, (get_color_exact_thresholds 1 4).1 (by norm_num)⟩

/-! ## State-preservation lemmas of the gamification chain -/

/-- Acquiring (or re-checking) a badge never touches `daily_quests`. -/
lemma unlock_badge_daily_quests (d : Document) (b : String) :
    (unlock_badge d b).1.user.daily_quests = d.user.daily_quests := by
  unfold unlock_badge
  split <;> rfl

/-- Acquiring (or re-checking) a badge never touches the goal records. -/
lemma unlock_badge_goals (d : Document) (b : String) :
    (unlock_badge d b).1.goals = d.goals := by
  unfold unlock_badge
  split <;> rfl

/-- A badge already present survives any unlock attempt. -/
lemma unlock_badge_mem (d : Document) (b b' : String) (h : b ∈ d.user.badges) :
    b ∈ (unlock_badge d b').1.user.badges := by
  unfold unlock_badge
  split
  · exact List.mem_append_left _ h
  · exact h

/-- Unlocking preserves duplicate-freedom of the badge list (a badge is
appended only when absent). -/
lemma unlock_badge_nodup (d : Document) (b : String) (h : d.user.badges.Nodup) :
    (unlock_badge d b).1.user.badges.Nodup := by
  unfold unlock_badge
  split
  · rename_i hnotmem
    simp [List.nodup_append, h, hnotmem]
  · exact h

/-- Guarded unlock preserves `daily_quests`. -/
lemma condUnlock_daily_quests (c : Prop) [Decidable c] (d : Document) (b : String) :
    (condUnlock c d b).user.daily_quests = d.user.daily_quests := by
  unfold condUnlock
  split
  · exact unlock_badge_daily_quests d b
  · rfl

/-- Guarded unlock preserves the goal records. -/
lemma condUnlock_goals (c : Prop) [Decidable c] (d : Document) (b : String) :
    (condUnlock c d b).goals = d.goals := by
  unfold condUnlock
  split
  · exact unlock_badge_goals d b
  · rfl

/-- Guarded unlock preserves present badges. -/
lemma condUnlock_mem (c : Prop) [Decidable c] (d : Document) (b b' : String)
    (h : b ∈ d.user.badges) : b ∈ (condUnlock c d b').user.badges := by
  unfold condUnlock
  split
  · exact unlock_badge_mem d b b' h
  · exact h

/-- Guarded unlock preserves duplicate-freedom of the badge list. -/
lemma condUnlock_nodup (c : Prop) [Decidable c] (d : Document) (b : String)
    (h : d.user.badges.Nodup) : (condUnlock c d b).user.badges.Nodup := by
  unfold condUnlock
  split
  · exact unlock_badge_nodup d b h
  · exact h

/-- The achievement re-check never touches `daily_quests`. -/
lemma check_achievements_daily_quests (d : Document) (n : String) (t : Int) :
    (check_achievements d n t).user.daily_quests = d.user.daily_quests := by
  unfold check_achievements
  simp only [condUnlock_daily_quests]

/-- The achievement re-check preserves present badges. -/
lemma check_achievements_mem (d : Document) (n : String) (t : Int) (b : String)
    (h : b ∈ d.user.badges) : b ∈ (check_achievements d n t).user.badges := by
  unfold check_achievements
  apply condUnlock_mem
  repeat apply condUnlock_mem
  exact h

/-- The achievement re-check preserves duplicate-freedom of badges. -/
lemma check_achievements_nodup (d : Document) (n : String) (t : Int)
    (h : d.user.badges.Nodup) : (check_achievements d n t).user.badges.Nodup := by
  unfold check_achievements
  apply condUnlock_nodup
  repeat apply condUnlock_nodup
  exact h

/-- The daily-quest check never touches badges. -/
lemma check_daily_quest_badges (d : Document) (t : Int) :
    (check_daily_quest d t).1.user.badges = d.user.badges := by
  unfold check_daily_quest
  split_ifs <;> rfl

/-- The daily-quest check never touches the goal records. -/
lemma check_daily_quest_goals (d : Document) (t : Int) :
    (check_daily_quest d t).1.goals = d.goals := by
  unfold check_daily_quest
  split_ifs <;> rfl

/-- Awarding XP never touches badges. -/
lemma add_xp_badges (u : UserProfile) (a : Nat) : (add_xp u a).1.badges = u.badges := rfl

/-- Awarding XP never touches `daily_quests`. -/
lemma add_xp_daily_quests (u : UserProfile) (a : Nat) :
    (add_xp u a).1.daily_quests = u.daily_quests := rfl

/-! ## C4: the daily-quest bonus -/

/-- C4: the +50 XP daily-quest bonus is granted exactly when, after a
positive-delta log dated today, exactly 4 distinct non-archived goals
have a positive entry for today and the bonus was not already granted
today; granting records `daily_quests[today] = true`, so the bonus fires
at most once per calendar day, and a 5th positively-logged goal (count 5,
not 4) does not trigger it.  The last conjunct ties the check to
`logEvent`: a valid positive log for today that brings the count to 4
leaves the grant recorded in the resulting document. -/
theorem daily_quest_bonus (data : Document) (today : Int) :
    (goals_logged_today data today = 4 → getEntry data.user.daily_quests today ≠ some true →
        (check_daily_quest data today).2 = 50 ∧
        getEntry (check_daily_quest data today).1.user.daily_quests today = some true) ∧
    ((check_daily_quest data today).2 = 50 →
        (check_daily_quest (check_daily_quest data today).1 today).2 = 0) ∧
    (goals_logged_today data today = 5 → check_daily_quest data today = (data, 0)) ∧
    (getEntry data.user.daily_quests today = some true → check_daily_quest data today = (data, 0)) ∧
    (∀ (name : String) (amount : AmountArg) (date : DateArg) (g : Goal) (na : Int × Int),
        strStartsWith name uscore = false →
        lookupGoal data name = some g →
        resolve_date date today = some today →
        parse_amount amount ((getEntry g.history today).getD 0) = some na →
        0 < na.2 →
        goals_logged_today
          { data with
            goals := setEntry data.goals name ({ g with history := setEntry g.history today na.1 }) }
          today = 4 →
        getEntry data.user.daily_quests today ≠ some true →
        getEntry (cmd_log data name amount date today).user.daily_quests today = some true) := by
  refine ⟨?_, ?_, ?_, ?_, ?_⟩
  · intro h4 hflag
    unfold check_daily_quest
    rw [if_pos h4, if_pos hflag]
    exact ⟨rfl, getEntry_setEntry_self _ _ _⟩
  · intro h50
    by_cases h4 : goals_logged_today data today = 4
    · by_cases hflag : getEntry data.user.daily_quests today = some true
      · exfalso
        unfold check_daily_quest at h50
        rw [if_pos h4, if_neg (not_not_intro hflag)] at h50
        simp at h50
      · have hres : check_daily_quest data today =
            ({ data with user := { data.user with
                daily_quests := setEntry data.user.daily_quests today true } }, 50) := by
          unfold check_daily_quest
          rw [if_pos h4, if_pos hflag]
        rw [hres]
        have h4' : goals_logged_today ({ data with user := { data.user with
            daily_quests := setEntry data.user.daily_quests today true } }) today = 4 := h4
        have hflag' : getEntry ({ data with user := { data.user with
            daily_quests := setEntry data.user.daily_quests today true } }).user.daily_quests today
            = some true := getEntry_setEntry_self _ _ _
        unfold check_daily_quest
        rw [if_pos h4', if_neg (not_not_intro hflag')]
    · exfalso
      unfold check_daily_quest at h50
      rw [if_neg h4] at h50
      simp at h50
  · intro h5
    have h4 : ¬ goals_logged_today data today = 4 := by omega
    unfold check_daily_quest
    rw [if_neg h4]
  · intro hflag
    unfold check_daily_quest
    by_cases h4 : goals_logged_today data today = 4
    · rw [if_pos h4, if_neg (not_not_intro hflag)]
    · rw [if_neg h4]
  · intro name amount date g na hname hg hdate hparse hpos h4 hflag
    simp only [cmd_log, hname, hg, hdate, hparse, Bool.false_eq_true, if_false]
    rw [if_pos hpos]
    rw [check_achievements_daily_quests]
    cases hs : g.stat <;>
      simp only [hs, ite_true, if_true, add_xp_daily_quests] <;>
      (rw [hs] at h4
       unfold check_daily_quest
       split_ifs
       exact getEntry_setEntry_self _ _ _)

/-- C4 witness: on a document with exactly four active goals logged
positively on day 0 and no prior grant, the check awards 50 and records
the grant; re-checking the resulting document awards 0; and an
end-to-end positive log on the fourth goal of `doc4b` leaves the grant
recorded. -/
theorem daily_quest_bonus_witness :
    (check_daily_quest doc4 0).2 = 50 ∧
      getEntry (check_daily_quest doc4 0).1.user.daily_quests 0 = some true ∧
      (check_daily_quest (check_daily_quest doc4 0).1 0).2 = 0 ∧
      getEntry (cmd_log doc4b gname4 (AmountArg.signed 1) DateArg.noneGiven 0).user.daily_quests 0
        = some true := by
  have h := daily_quest_bonus doc4 0
  have h1 := h.1 (by decide) (by decide)
  have h5 := (daily_quest_bonus doc4b 0).2.2.2.2 gname4 (AmountArg.signed 1) DateArg.noneGiven
    goalEmpty (1, 1) (by decide) (by decide) (by decide) (by decide) (by decide) (by decide)
    (by decide)
  exact ⟨h1.1, h1.2, h.2.1 h1.1, h5⟩

/-! ## C7: badge monotonicity -/

/-- A present badge survives any `cmd_log` event. -/
lemma cmd_log_badges_mono (data : Document) (name : String) (amount : AmountArg)
    (date : DateArg) (today : Int) (b : String) (h : b ∈ data.user.badges) :
    b ∈ (cmd_log data name amount date today).user.badges := by
  cases h1 : strStartsWith name uscore
  · cases hg : lookupGoal data name
    · simp only [cmd_log, h1, Bool.false_eq_true, if_false, hg]; exact h
    · rename_i g
      cases hd : resolve_date date today
      · simp only [cmd_log, h1, Bool.false_eq_true, if_false, hg, hd]; exact h
      · rename_i ld
        cases hp : parse_amount amount ((getEntry g.history ld).getD 0)
        · simp only [cmd_log, h1, Bool.false_eq_true, if_false, hg, hd, hp]; exact h
        · rename_i na
          simp only [cmd_log, h1, Bool.false_eq_true, if_false, hg, hd, hp]
          by_cases hpos : 0 < na.2
          · rw [if_pos hpos]
            apply check_achievements_mem
            cases hs : g.stat <;> by_cases hlt : ld = today <;>
              simp only [hs, hlt, ite_true, ite_false, eq_self_iff_true, if_true, if_false,
                add_xp_badges, check_daily_quest_badges] <;> exact h
          · rw [if_neg hpos]; exact h
  · simp only [cmd_log, h1, if_true]; exact h

/-- A duplicate-free badge list stays duplicate-free across `cmd_log`. -/
lemma cmd_log_badges_nodup (data : Document) (name : String) (amount : AmountArg)
    (date : DateArg) (today : Int) (h : data.user.badges.Nodup) :
    (cmd_log data name amount date today).user.badges.Nodup := by
  cases h1 : strStartsWith name uscore
  · cases hg : lookupGoal data name
    · simp only [cmd_log, h1, Bool.false_eq_true, if_false, hg]; exact h
    · rename_i g
      cases hd : resolve_date date today
      · simp only [cmd_log, h1, Bool.false_eq_true, if_false, hg, hd]; exact h
      · rename_i ld
        cases hp : parse_amount amount ((getEntry g.history ld).getD 0)
        · simp only [cmd_log, h1, Bool.false_eq_true, if_false, hg, hd, hp]; exact h
        · rename_i na
          simp only [cmd_log, h1, Bool.false_eq_true, if_false, hg, hd, hp]
          by_cases hpos : 0 < na.2
          · rw [if_pos hpos]
            apply check_achievements_nodup
            cases hs : g.stat <;> by_cases hlt : ld = today <;>
              simp only [hs, hlt, ite_true, ite_false, eq_self_iff_true, if_true, if_false,
                add_xp_badges, check_daily_quest_badges] <;> exact h
          · rw [if_neg hpos]; exact h
  · simp only [cmd_log, h1, if_true]; exact h

/-- C7: badge acquisition is monotonic: an unlock with the badge already
present is a no-op, an unlock with it absent appends it; a badge present
in the profile survives any achievement re-check and any log event; and
a duplicate-free badge list stays duplicate-free across any log event, so
each badge appears at most once. -/
theorem badges_monotone :
    (∀ (d : Document) (b : String),
        (b ∈ d.user.badges → unlock_badge d b = (d, false)) ∧
        (b ∉ d.user.badges → (unlock_badge d b).1.user.badges = d.user.badges ++ [b])) ∧
    (∀ (d : Document) (n : String) (t : Int) (b : String),
        b ∈ d.user.badges → b ∈ (check_achievements d n t).user.badges) ∧
    (∀ (data : Document) (name : String) (amount : AmountArg) (date : DateArg) (today : Int)
        (b : String), b ∈ data.user.badges →
          b ∈ (cmd_log data name amount date today).user.badges) ∧
    (∀ (data : Document) (name : String) (amount : AmountArg) (date : DateArg) (today : Int),
        data.user.badges.Nodup → (cmd_log data name amount date today).user.badges.Nodup) := by
  refine ⟨?_, check_achievements_mem, cmd_log_badges_mono, cmd_log_badges_nodup⟩
  intro d b
  constructor
  · intro hmem
    unfold unlock_badge
    rw [if_neg (not_not_intro hmem)]
  · intro hnot
    unfold unlock_badge
    rw [if_pos hnot]

/-- C7 witness: on a document already holding the first badge, the unlock
is a no-op and the badge survives a positive log event with a
duplicate-free badge list. -/
theorem badges_monotone_witness :
    unlock_badge doc7 badge_player = (doc7, false) ∧
      badge_player ∈ (cmd_log doc7 gname1 (AmountArg.signed 1) DateArg.noneGiven 0).user.badges ∧
      (cmd_log doc7 gname1 (AmountArg.signed 1) DateArg.noneGiven 0).user.badges.Nodup := by
  have h := badges_monotone
  have hm : badge_player ∈ doc7.user.badges := by decide
  exact ⟨(h.1 doc7 badge_player).1 hm,
    h.2.2.1 doc7 gname1 (AmountArg.signed 1) DateArg.noneGiven 0 badge_player hm,
    h.2.2.2 doc7 gname1 (AmountArg.signed 1) DateArg.noneGiven 0 (by decide)⟩

/-! ## C8: frame condition of non-positive deltas -/

/-- C8: a valid log event whose net delta is at most 0 (a decrement, a
no-change, or an absolute set at or below the current value) leaves the
entire user profile — xp, level, badges, stats and daily quests —
unchanged and updates only the logged goal's history entry for the
logged date. -/
theorem log_nonpositive_delta_frame (data : Document) (name : String) (amount : AmountArg)
    (date : DateArg) (today : Int) (g : Goal) (ld : Int) (na : Int × Int)
    (hname : strStartsWith name uscore = false)
    (hg : lookupGoal data name = some g)
    (hd : resolve_date date today = some ld)
    (hp : parse_amount amount ((getEntry g.history ld).getD 0) = some na)
    (hdelta : na.2 ≤ 0) :
    cmd_log data name amount date today =
      { data with
        goals := setEntry data.goals name ({ g with history := setEntry g.history ld na.1 }) } := by
  simp only [cmd_log, hname, Bool.false_eq_true, if_false, hg, hd, hp]
  rw [if_neg (not_lt.mpr hdelta)]

/-- C8 witness: logging -1 on a goal currently at 1 rewrites only that
history entry (to 0) and leaves the profile untouched. -/
theorem log_nonpositive_delta_frame_witness :
    cmd_log doc8 gname1 (AmountArg.signed (-1)) DateArg.noneGiven 0 =
      { doc8 with
        goals := setEntry doc8.goals gname1
          ({ goalPos with history := setEntry goalPos.history 0 0 }) } :=
  log_nonpositive_delta_frame doc8 gname1 (AmountArg.signed (-1)) DateArg.noneGiven 0 goalPos 0
    (0, -1) (by decide) (by decide) rfl (by decide) (by decide)

/-! ## C5: longest streak dominates current streak -/

/-- The current-streak loop returns at most its fuel. -/
lemma consecBefore_le (dates : List Int) : ∀ (fuel : Nat) (c : Int),
    consecBefore dates c fuel ≤ fuel := by
  intro fuel
  induction fuel with
  | zero => intro c; simp [consecBefore]
  | succ n ih =>
    intro c
    rw [consecBefore]
    split
    · have := ih (c - 1); omega
    · omega

/-- Every day counted by the current-streak loop is a member of `dates`. -/
lemma consecBefore_mem (dates : List Int) : ∀ (fuel : Nat) (c : Int) (i : Nat),
    i < consecBefore dates c fuel → (c - 1 - (i : Int)) ∈ dates := by
  intro fuel
  induction fuel with
  | zero => intro c i h; simp [consecBefore] at h
  | succ n ih =>
    intro c i h
    rw [consecBefore] at h
    by_cases hm : (c - 1) ∈ dates
    · rw [if_pos hm] at h
      cases i with
      | zero => simpa using hm
      | succ j =>
        have hj : j < consecBefore dates (c - 1) n := by omega
        have hmem := ih (c - 1) j hj
        have heq : c - 1 - ((j + 1 : Nat) : Int) = (c - 1) - 1 - (j : Int) := by push_cast; ring
        rw [heq]
        exact hmem
    · rw [if_neg hm] at h
      omega

/-- Length of a consecutive run. -/
lemma chainList_length (a : Int) (k : Nat) : (chainList a k).length = k := by
  induction k generalizing a with
  | zero => simp [chainList]
  | succ n ih => simp [chainList, ih]

/-- Membership in a consecutive run. -/
lemma mem_chainList (x a : Int) (k : Nat) :
    x ∈ chainList a k ↔ ∃ i : Nat, i < k ∧ x = a + (i : Int) := by
  induction k generalizing a with
  | zero => simp [chainList]
  | succ n ih =>
    simp only [chainList, List.mem_cons, ih]
    constructor
    · rintro (rfl | ⟨i, hi, rfl⟩)
      · exact ⟨0, by omega, by simp⟩
      · exact ⟨i + 1, by omega, by push_cast; ring⟩
    · rintro ⟨i, hi, rfl⟩
      cases i with
      | zero => left; simp
      | succ j => right; exact ⟨j, by omega, by push_cast; ring⟩

/-- Extending a consecutive run on the right. -/
lemma chainList_append (a : Int) (k : Nat) :
    chainList a k ++ [a + (k : Int)] = chainList a (k + 1) := by
  induction k generalizing a with
  | zero => simp [chainList]
  | succ n ih =>
    simp only [chainList, List.cons_append]
    have h : a + ((n + 1 : Nat) : Int) = (a + 1) + (n : Int) := by push_cast; ring
    rw [h, ih]
    rfl

/-- A consecutive run is strictly increasing. -/
lemma chainList_pairwise (a : Int) (k : Nat) : (chainList a k).Pairwise (· < ·) := by
  induction k generalizing a with
  | zero => simp [chainList]
  | succ n ih =>
    simp only [chainList, List.pairwise_cons]
    refine ⟨?_, ih (a + 1)⟩
    intro x hx
    obtain ⟨i, hi, rfl⟩ := (mem_chainList x (a + 1) n).mp hx
    omega

/-- Fidelity of the fuelled current-streak loop: started at a member of
`dates` with fuel `dates.length`, the loop always stops by a failed
membership test, never by fuel exhaustion — the returned count would
otherwise name `dates.length + 1` pairwise-distinct members of a list of
length `dates.length`.  Hence the embedding agrees with the unbounded
Python `while True` loop on every reachable input. -/
lemma consecBefore_lt_length (dates : List Int) (c : Int) (hc : c ∈ dates) :
    consecBefore dates c dates.length < dates.length := by
  set L := dates.length with hL
  rcases lt_or_eq_of_le (consecBefore_le dates L c) with h | h
  · exact h
  · exfalso
    have hmem : ∀ i : Nat, i < L + 1 → (c - (L : Int) + (i : Int)) ∈ dates := by
      intro i hi
      by_cases hik : i = L
      · subst hik
        rw [show c - (L : Int) + (L : Int) = c from by ring]
        exact hc
      · have hiK : i < L := by omega
        have hmem2 := consecBefore_mem dates L c (L - 1 - i) (by omega)
        have heq : c - (L : Int) + (i : Int) = c - 1 - ((L - 1 - i : Nat) : Int) := by omega
        rw [heq]
        exact hmem2
    have hchainnd : (chainList (c - (L : Int)) (L + 1)).Nodup :=
      (chainList_pairwise _ _).imp (fun hlt' => ne_of_lt hlt')
    have h1 : (chainList (c - (L : Int)) (L + 1)).toFinset.card = L + 1 := by
      rw [List.toFinset_card_of_nodup hchainnd, chainList_length]
    have h2 : (chainList (c - (L : Int)) (L + 1)).toFinset ⊆ dates.toFinset := by
      intro x hx
      simp only [List.mem_toFinset] at hx ⊢
      obtain ⟨i, hi, rfl⟩ := (mem_chainList _ _ _).mp hx
      exact hmem i hi
    have h3 := Finset.card_le_card h2
    have h4 : dates.toFinset.card ≤ L := by
      rw [hL]
      exact List.toFinset_card_le dates
    omega

/-- Unfolding equation of the longest-streak scan at a cons cell. -/
lemma longestLoop_cons (prev : Int) (temp best : Nat) (d : Int) (rest : List Int) :
    longestLoop prev temp best (d :: rest) =
      longestLoop d (if d = prev + 1 then temp + 1 else 1)
        (max best (if d = prev + 1 then temp + 1 else 1)) rest := rfl

/-- The longest-streak scan never returns less than its running maximum. -/
lemma longestLoop_ge_best (l : List Int) : ∀ (prev : Int) (temp best : Nat),
    best ≤ longestLoop prev temp best l := by
  induction l with
  | nil => intro prev temp best; simp [longestLoop]
  | cons d rest ih =>
    intro prev temp best
    rw [longestLoop_cons]
    exact le_trans (le_max_left _ _) (ih d _ _)

/-- Scanning a consecutive run that extends the current run keeps
accumulating: the result is at least `temp + k`. -/
lemma longestLoop_chain (k : Nat) : ∀ (prev : Int) (temp best : Nat) (l' : List Int),
    temp ≤ best → temp + k ≤ longestLoop prev temp best (chainList (prev + 1) k ++ l') := by
  induction k with
  | zero =>
    intro prev temp best l' h
    simpa [chainList] using le_trans h (longestLoop_ge_best l' prev temp best)
  | succ n ih =>
    intro prev temp best l' h
    rw [show chainList (prev + 1) (n + 1) = (prev + 1) :: chainList (prev + 1 + 1) n from rfl,
      List.cons_append, longestLoop_cons, if_pos rfl]
    have := ih (prev + 1) (temp + 1) (max best (temp + 1)) l' (le_max_right _ _)
    omega

/-- A consecutive run of length `k` anywhere in the scanned list forces a
result of at least `k`. -/
lemma longestLoop_chain_general (l1 : List Int) (a : Int) (k : Nat) (l2 : List Int) :
    ∀ (prev : Int) (temp best : Nat), 0 < k → temp ≤ best →
      k ≤ longestLoop prev temp best (l1 ++ (chainList a k ++ l2)) := by
  induction l1 with
  | nil =>
    intro prev temp best hk h
    cases k with
    | zero => omega
    | succ n =>
      rw [List.nil_append,
        show chainList a (n + 1) = a :: chainList (a + 1) n from rfl,
        List.cons_append, longestLoop_cons]
      have ht1 : 1 ≤ (if a = prev + 1 then temp + 1 else 1) := by split <;> omega
      have := longestLoop_chain n a (if a = prev + 1 then temp + 1 else 1)
        (max best (if a = prev + 1 then temp + 1 else 1)) l2 (le_max_right _ _)
      omega
  | cons x l1' ih =>
    intro prev temp best hk h
    rw [List.cons_append, longestLoop_cons]
    exact ih x _ _ hk (le_max_right _ _)

/-- In a strictly sorted list, `k` consecutive integer members occupy `k`
adjacent positions: the list splits around the run. -/
lemma sorted_infix_chain (l : List Int) (hs : l.Pairwise (· < ·)) :
    ∀ (k : Nat) (a : Int), 0 < k → (∀ i : Nat, i < k → (a + (i : Int)) ∈ l) →
      ∃ l1 l2, l = l1 ++ (chainList a k ++ l2) := by
  intro k
  induction k with
  | zero => intro a h; omega
  | succ n ih =>
    intro a _ hmem
    by_cases hn : n = 0
    · subst hn
      have ha : a ∈ l := by simpa using hmem 0 (by omega)
      obtain ⟨s, t, rfl⟩ := List.append_of_mem ha
      exact ⟨s, t, by simp [chainList]⟩
    · have hn' : 0 < n := Nat.pos_of_ne_zero hn
      obtain ⟨l1, l2, heq⟩ := ih a hn' (fun i hi => hmem i (by omega))
      have han : (a + (n : Int)) ∈ l := hmem n (by omega)
      subst heq
      rw [List.pairwise_append] at hs
      obtain ⟨hp1, hp23, hcr1⟩ := hs
      rw [List.pairwise_append] at hp23
      obtain ⟨hpc, hp2, hcr2⟩ := hp23
      have hmemc : a ∈ chainList a n := (mem_chainList a a n).mpr ⟨0, hn', by simp⟩
      have h1 : (a + (n : Int)) ∉ l1 := by
        intro hx
        have := hcr1 _ hx a (List.mem_append_left _ hmemc)
        omega
      have h2 : (a + (n : Int)) ∉ chainList a n := by
        intro hx
        obtain ⟨i, hi, hx2⟩ := (mem_chainList _ a n).mp hx
        omega
      have h3 : (a + (n : Int)) ∈ l2 := by
        rcases List.mem_append.mp han with hx | hx
        · exact absurd hx h1
        · rcases List.mem_append.mp hx with hy | hy
          · exact absurd hy h2
          · exact hy
      obtain ⟨u, v, huv⟩ := List.append_of_mem h3
      subst huv
      cases u with
      | cons w u' =>
        exfalso
        have hwc : a + ((n : Int) - 1) ∈ chainList a n :=
          (mem_chainList _ a n).mpr ⟨n - 1, by omega, by omega⟩
        have hlast : a + ((n : Int) - 1) < w := hcr2 _ hwc w (by simp)
        have hw2 : w < a + (n : Int) := (List.pairwise_cons.mp hp2).1 (a + (n : Int)) (by simp)
        omega
      | nil =>
        refine ⟨l1, v, ?_⟩
        rw [← chainList_append]
        simp [List.append_assoc]

/-- A strictly sorted list containing `k` consecutive integers has a
longest streak of at least `k`. -/
lemma longest_streak_ge (l : List Int) (hs : l.Pairwise (· < ·)) (a : Int) (k : Nat)
    (hk : 0 < k) (hmem : ∀ i : Nat, i < k → (a + (i : Int)) ∈ l) : k ≤ longest_streak l := by
  obtain ⟨l1, l2, rfl⟩ := sorted_infix_chain l hs k a hk hmem
  cases l1 with
  | nil =>
    cases k with
    | zero => omega
    | succ n =>
      rw [List.nil_append, show chainList a (n + 1) = a :: chainList (a + 1) n from rfl,
        List.cons_append,
        show longest_streak (a :: (chainList (a + 1) n ++ l2)) =
          longestLoop a 1 1 (chainList (a + 1) n ++ l2) from rfl]
      have := longestLoop_chain n a 1 1 l2 le_rfl
      omega
  | cons x l1' =>
    rw [List.cons_append,
      show longest_streak (x :: (l1' ++ (chainList a k ++ l2))) =
        longestLoop x 1 1 (l1' ++ (chainList a k ++ l2)) from rfl]
    exact longestLoop_chain_general l1' a k l2 x 1 1 hk le_rfl

/-- On a strictly sorted date list, the current streak (whether anchored
at today or at yesterday) never exceeds the longest streak. -/
lemma current_le_longest (dates : List Int) (today : Int) (hs : dates.Pairwise (· < ·)) :
    (if today ∈ dates then 1 + consecBefore dates today dates.length
      else if (today - 1) ∈ dates then 1 + consecBefore dates (today - 1) dates.length
      else 0) ≤ longest_streak dates := by
  have key : ∀ s : Int, s ∈ dates →
      1 + consecBefore dates s dates.length ≤ longest_streak dates := by
    intro s hsm
    set K := consecBefore dates s dates.length with hK
    have hle := longest_streak_ge dates hs (s - (K : Int)) (K + 1) (by omega) ?_
    · omega
    intro i hi
    by_cases hik : i = K
    · subst hik
      rw [show s - (K : Int) + (K : Int) = s from by ring]
      exact hsm
    · have hiK : i < K := by omega
      have hmem := consecBefore_mem dates dates.length s (K - 1 - i) (by omega)
      have heq : s - (K : Int) + (i : Int) = s - 1 - ((K - 1 - i : Nat) : Int) := by omega
      rw [heq]
      exact hmem
  split_ifs with h1 h2
  · exact key today h1
  · exact key (today - 1) h2
  · exact Nat.zero_le _

/-- C5: for every history (a date-to-count mapping, so its keys carry no
duplicates) and every injected today, the longest streak computed by the
statistics engine is at least the current streak. -/
theorem longest_ge_current (history : List (Int × Int)) (today : Int)
    (hnd : (history.map Prod.fst).Nodup) :
    (calculate_stats history today).1 ≤ (calculate_stats history today).2.1 := by
  unfold calculate_stats
  split
  · exact Nat.zero_le _
  · simp only []
    split
    · exact Nat.zero_le _
    · have hsub : ((history.filter fun p => decide (0 < p.2)).map Prod.fst).Sublist
          (history.map Prod.fst) := (List.filter_sublist _).map _
      have hnd1 := List.Nodup.sublist hsub hnd
      have hnd2 : (List.insertionSort (· ≤ ·)
          ((history.filter fun p => decide (0 < p.2)).map Prod.fst)).Nodup :=
        ((List.perm_insertionSort _ _).nodup_iff).mpr hnd1
      have hsorted : (List.insertionSort (· ≤ ·)
          ((history.filter fun p => decide (0 < p.2)).map Prod.fst)).Sorted (· ≤ ·) :=
        List.sorted_insertionSort _ _
      exact current_le_longest _ today (hsorted.lt_of_le hnd2)

/-- C5 witness: the streak bound instantiated at the one-entry history
mapping day 0 to count 1, with today = 0. -/
theorem longest_ge_current_witness :
    (([((0 : Int), (1 : Int))] : List (Int × Int)).map Prod.fst).Nodup ∧
      (calculate_stats [(0, 1)] 0).1 ≤ (calculate_stats [(0, 1)] 0).2.1 :=
  ⟨by decide, longest_ge_current [(0, 1)] 0 (by decide)⟩
